import Mathlib

/-!
Shallow embedding of the BlinkyTape host-side driver
(`python_example/blinkytape.py`) and verification of its protocol-layer
properties.

The serial channel is modelled as the list of bytes written so far
(`written`); a blocking response stream is modelled as a list of bytes
handed to the command functions.  Python byte strings become `List Nat`,
Python integers become `Int` (or `Nat` where the source only ever sees
non-negative values), and fallible operations return `Option`/`Except`.
-/

/-- Python `chr`: defined for code points 0..255, error otherwise
(modelled as `none`). -/
def chr (n : Int) : Option Nat :=
  if 0 ≤ n ∧ n < 256 then some n.toNat else none

/-- Driver state (`BlinkyTape.__init__`, lines 19-56): configured LED
count, buffering flag, the pending buffer `buf`, and the concatenation of
all bytes written to the serial channel so far. -/
structure BlinkyTape where
  ledCount : Nat
  buffered : Bool
  buf : List Nat
  written : List Nat

deriving instance DecidableEq for BlinkyTape

/-- Per-channel clamping performed by `sendPixel` (lines 86-97): first
negative values are raised to 0, then values at or above 255 are lowered
to 254. -/
def clampChannel (v : Int) : Int :=
  let v1 := if v < 0 then 0 else v
  if 255 ≤ v1 then 254 else v1

/-- The 3-byte triplet `data = chr(r) + chr(g) + chr(b)` built by
`sendPixel` (line 98).  After clamping every channel lies in 0..254, so
`chr` always succeeds and the bytes are taken directly. -/
def encodePixel (r g b : Int) : List Nat :=
  [(clampChannel r).toNat, (clampChannel g).toNat, (clampChannel b).toNat]

/-- `BlinkyTape.sendPixel` (lines 78-106).  Note the source condition is
`len(data) * 3 < self.ledCount` with `data` the 3-character triplet just
built, so the test compares 9 against `ledCount` and never consults the
number of pixels already sent. -/
def sendPixel (st : BlinkyTape) (r g b : Int) : Except String BlinkyTape :=
  let data := encodePixel r g b
  if data.length * 3 < st.ledCount then
    if st.buffered then
      Except.ok { st with buf := st.buf ++ data }
    else
      Except.ok { st with written := st.written ++ data }
  else
    Except.error "Attempting to set pixel outside range!"

/-- `BlinkyTape.show` (lines 108-121), renamed because `show` is a Lean
keyword: writes the pending buffer (buffered mode) followed by the
control triplet (0, 0, 255), and resets the pending buffer. -/
def showFrame (st : BlinkyTape) : BlinkyTape :=
  let control : List Nat := [0, 0, 255]
  if st.buffered then
    { st with written := st.written ++ st.buf ++ control, buf := [] }
  else
    { st with written := st.written ++ control }

/-- A caller loop issuing `sendPixel` once per listed pixel, stopping at
the first raised exception (as a Python `for` loop would). -/
def sendPixels : List (Int × Int × Int) → BlinkyTape → Except String BlinkyTape
  | [], st => Except.ok st
  | (r, g, b) :: rest, st =>
    match sendPixel st r g b with
    | Except.error e => Except.error e
    | Except.ok st2 => sendPixels rest st2

/-- One whole frame: a fresh driver state, `sendPixel` per listed pixel,
then `show`. -/
def runFrame (ledCount : Nat) (buffered : Bool)
    (pixels : List (Int × Int × Int)) : Except String BlinkyTape :=
  (sendPixels pixels ⟨ledCount, buffered, [], []⟩).map showFrame

/-- Whether an `Except` computation finished without raising. -/
def isOkE {α : Type} (e : Except String α) : Bool :=
  match e with
  | Except.ok _ => true
  | Except.error _ => false

/-- The one-sided clamping in the effective (second) definition of
`send_list` (lines 68-73): only values at or above 255 are lowered to
254; negative values pass through unchanged. -/
def clampHigh (v : Int) : Int := if 255 ≤ v then 254 else v

/-- The byte string accumulated by the effective `send_list`
(lines 66-74): `data += chr(r) + chr(g) + chr(b)` after one-sided
clamping.  `chr` of a negative value raises, modelled as `none`. -/
def sendListEncode : List (Int × Int × Int) → Option (List Nat)
  | [] => some []
  | (r, g, b) :: rest => do
    let a ← chr (clampHigh r)
    let c ← chr (clampHigh g)
    let d ← chr (clampHigh b)
    let t ← sendListEncode rest
    pure (a :: c :: d :: t)

/-- The effective (second) definition of `BlinkyTape.send_list`
(lines 65-76): accumulate the encoded bytes, write them in one call, then
`show`.  A `chr` failure aborts before anything is written. -/
def send_list (st : BlinkyTape) (colors : List (Int × Int × Int)) :
    Option BlinkyTape :=
  match sendListEncode colors with
  | none => none
  | some data => some (showFrame { st with written := st.written ++ data })

/-- Result of a command round trip: the bytes the command path wrote to
the channel, the decoded status flag, and the payload bytes read back. -/
structure CommandResult where
  writes : List Nat
  status : Bool
  data : List Nat

/-- The escape preamble built by the loop in `sendCommand`
(lines 139-141): ten successive appends of `chr(255)`. -/
def controlEscapeSequence : List Nat :=
  (List.range 10).foldl (fun acc _ => acc ++ [255]) []

/-- `BlinkyTape.sendCommand` (lines 137-157).  The writes (preamble then
command payload) all happen before any response byte is read; the
blocking reads are modelled by consuming the given `response` list:
2 header bytes, then `ret[1] + 1` data bytes.  (Python indexing of a
too-short read would fault; here, as in the source under its blocking
semantics, the interesting cases have enough bytes, and a missing byte is
modelled as 0.) -/
def sendCommand (command : List Nat) (response : List Nat) : CommandResult :=
  let ret := response.take 2
  let status := ret.getD 0 0 == 80
  let returnData := (response.drop 2).take (ret.getD 1 0 + 1)
  { writes := controlEscapeSequence ++ command
    status := status
    data := returnData }

/-- The 4-byte big-endian decode used by `getFreeSpace` and friends
(lines 185-188): `ord(d[0]) << 24 + ord(d[1]) << 16 + ord(d[2]) << 8 +
ord(d[3])`. -/
def beDecode4 (d : List Nat) : Nat :=
  ((d.getD 0 0) <<< 24) + ((d.getD 1 0) <<< 16)
    + ((d.getD 2 0) <<< 8) + (d.getD 3 0)

/-- `BlinkyTape.getFreeSpace` (lines 175-190): issue opcode 0x10, decode
a big-endian u32 when the status byte signalled success, 0 otherwise. -/
def getFreeSpace (response : List Nat) : Nat :=
  let r := sendCommand [0x10] response
  if r.status then beDecode4 r.data else 0

/-- Big-endian encoding of a 32-bit field, four `chr((v >> k) & 0xFF)`
bytes as in lines 304-311. -/
def u32be (v : Nat) : List Nat :=
  [(v >>> 24) &&& 0xFF, (v >>> 16) &&& 0xFF, (v >>> 8) &&& 0xFF, v &&& 0xFF]

/-- `BlinkyTape.writeFilePage` (lines 297-316): a payload whose length
differs from 256 returns `False` before any channel write; otherwise the
command 0x19, sector:u32, offset:u32, data is issued through
`sendCommand` and the decoded status returned. -/
def writeFilePage (sector offset : Nat) (data : List Nat)
    (response : List Nat) : List Nat × Bool :=
  if data.length ≠ 256 then ([], false)
  else
    let command := 0x19 :: (u32be sector ++ u32be offset ++ data)
    let r := sendCommand command response
    (r.writes, r.status)

/-- The final length byte of `readFileData` (line 333):
`chr(length - 1 & 0xFF)`, which by Python operator precedence is
`chr((length - 1) & 0xFF)`, a mod-256 reduction of `length - 1` on
arbitrary-precision integers. -/
def lenByte (length : Nat) : Nat := (((length : Int) - 1) % 256).toNat

/-- `BlinkyTape.readFileData` (lines 318-335).  A request for more than
256 bytes returns the bare boolean `False` with no channel traffic
(left summand); otherwise the (status, data) pair of the completed round
trip is returned (right summand). -/
def readFileData (sector offset : Nat) (length : Nat)
    (response : List Nat) : List Nat × Sum Bool (Bool × List Nat) :=
  if 256 < length then ([], Sum.inl false)
  else
    let command := 0x1A :: (u32be sector ++ u32be offset ++ [lenByte length])
    let r := sendCommand command response
    (r.writes, Sum.inr (r.status, r.data))

/-! Helper lemmas shared by several claims. -/

lemma clampChannel_eq (v : Int) :
    clampChannel v = if v < 0 then 0 else if 255 ≤ v then 254 else v := by
  simp only [clampChannel]
  split_ifs <;> omega

lemma clampChannel_toNat_le (v : Int) : (clampChannel v).toNat ≤ 254 := by
  rw [clampChannel_eq]
  split_ifs <;> omega

lemma chr_clampHigh_le (v : Int) (a : Nat)
    (h : chr (clampHigh v) = some a) : a ≤ 254 := by
  simp only [chr, clampHigh] at h
  split_ifs at h <;> simp at h <;> omega

lemma controlEscapeSequence_eq :
    controlEscapeSequence = List.replicate 10 255 := rfl

lemma sendListEncode_cons (r g b : Int) (rest : List (Int × Int × Int)) :
    sendListEncode ((r, g, b) :: rest) =
      (chr (clampHigh r)).bind fun a =>
      (chr (clampHigh g)).bind fun c =>
      (chr (clampHigh b)).bind fun d =>
      (sendListEncode rest).bind fun t => some (a :: c :: d :: t) := rfl

lemma isOkE_sendPixel (st : BlinkyTape) (r g b : Int) :
    isOkE (sendPixel st r g b) = decide (9 < st.ledCount) := by
  have hl : (encodePixel r g b).length = 3 := rfl
  simp only [sendPixel]
  by_cases h : 9 < st.ledCount
  · have hc : (encodePixel r g b).length * 3 < st.ledCount := by omega
    simp only [hc, if_pos]
    by_cases hb : st.buffered <;> simp [hb, isOkE, h]
  · have hc : ¬ (encodePixel r g b).length * 3 < st.ledCount := by omega
    simp [hc, isOkE, h]

/-- Simulation between buffered and immediate mode: starting from states
that agree on `ledCount` and satisfy `written ++ buf` (buffered) =
`written` (immediate), a run of `sendPixel` calls either succeeds in both
modes preserving the relation, or raises the same error in both. -/
lemma sendPixels_mode_sim (ps : List (Int × Int × Int)) :
    ∀ s1 s2 : BlinkyTape, s1.buffered = true → s2.buffered = false →
      s1.ledCount = s2.ledCount → s1.written ++ s1.buf = s2.written →
      (∃ t1 t2, sendPixels ps s1 = Except.ok t1
        ∧ sendPixels ps s2 = Except.ok t2
        ∧ t1.buffered = true ∧ t2.buffered = false
        ∧ t1.ledCount = t2.ledCount ∧ t1.written ++ t1.buf = t2.written)
      ∨ (∃ e, sendPixels ps s1 = Except.error e
        ∧ sendPixels ps s2 = Except.error e) := by
  induction ps with
  | nil =>
      intro s1 s2 h1 h2 h3 h4
      exact Or.inl ⟨s1, s2, rfl, rfl, h1, h2, h3, h4⟩
  | cons p rest ih =>
      obtain ⟨r, g, b⟩ := p
      intro s1 s2 h1 h2 h3 h4
      by_cases hc : (encodePixel r g b).length * 3 < s1.ledCount
      · have hc2 : (encodePixel r g b).length * 3 < s2.ledCount := h3 ▸ hc
        simp only [sendPixels, sendPixel, hc, hc2, if_pos, h1, h2,
          if_true, Bool.false_eq_true, if_false]
        apply ih
        · rfl
        · rfl
        · exact h3
        · rw [← List.append_assoc, h4]
      · have hc2 : ¬ (encodePixel r g b).length * 3 < s2.ledCount := h3 ▸ hc
        simp only [sendPixels, sendPixel, hc, hc2, if_neg, not_false_iff]
        exact Or.inr ⟨_, rfl, rfl⟩

/-! Claim theorems. -/

/-- C1: the spec says sending `ledCount + 1` pixels before a show raises
the capacity error, and that no capacity error is raised while the pixel
count stays at or below `ledCount`.  The code instead tests
`len(data) * 3 < ledCount` with `len(data) = 3` always, i.e. `9 <
ledCount`, independent of the pixel count: with the default `ledCount =
60` a 61-pixel frame is accepted without error, and with `ledCount = 5`
the very first pixel raises. -/
theorem c1_capacity_check_is_broken :
    isOkE (runFrame 60 true (List.replicate 61 ((1 : Int), 1, 1))) = true
    ∧ runFrame 5 true [((1 : Int), 1, 1)]
        = Except.error "Attempting to set pixel outside range!" := by
  exact ⟨by decide, rfl⟩

/-- C2: the spec says sending `N ≤ ledCount` pixels then `show` writes
exactly `3N + 3` bytes.  With `ledCount = 5` and `N = 1` the code raises
on the first `sendPixel` (its capacity test is `9 < ledCount`), so no
bytes are written at all. -/
theorem c2_frame_roundtrip_broken_for_small_ledcount :
    sendPixel ⟨5, true, [], []⟩ 1 1 1
      = Except.error "Attempting to set pixel outside range!" := rfl

/-- C3 counterexample: the claim says `send_list` clamps negative channel
values up to 0 before transmission.  In fact the effective `send_list`
performs no low-side clamping: `chr` of the untouched negative value
raises, so nothing is transmitted at all. -/
theorem c3_send_list_negative_not_clamped :
    send_list ⟨60, true, [], []⟩ [((-1 : Int), 0, 0)] = none := by
  decide

/-- C3 (amended): every pixel-data byte `sendPixel` writes is in
[0, 254] (high values clamped to 254, negatives to 0), and every
pixel-data byte the effective `send_list` successfully writes is in
[0, 254] (high values clamped to 254); but `send_list` does not clamp
negative channel values — it fails on them instead of transmitting 0. -/
theorem c3_wire_bytes_in_range :
    (∀ r g b : Int,
      (encodePixel r g b).all (fun x => decide (x ≤ 254)) = true)
    ∧ (∀ colors data, sendListEncode colors = some data →
        data.all (fun x => decide (x ≤ 254)) = true)
    ∧ (∀ r g b : Int, r < 0 ∨ g < 0 ∨ b < 0 →
        sendListEncode [(r, g, b)] = none) := by
  refine ⟨?_, ?_, ?_⟩
  · intro r g b
    have h1 := clampChannel_toNat_le r
    have h2 := clampChannel_toNat_le g
    have h3 := clampChannel_toNat_le b
    simp only [encodePixel, List.all_cons, List.all_nil, Bool.and_true,
      Bool.and_eq_true, decide_eq_true_eq]
    omega
  · intro colors
    induction colors with
    | nil =>
        intro data h
        simp only [sendListEncode, Option.some.injEq] at h
        subst h
        rfl
    | cons head rest ih =>
        obtain ⟨r, g, b⟩ := head
        intro data h
        simp only [sendListEncode, Option.bind_eq_bind, Option.bind_eq_some] at h
        obtain ⟨a, ha, c, hc, d, hd, t, ht, hdata⟩ := h
        simp only [Option.pure_def, Option.some.injEq] at hdata
        subst hdata
        have h1 := chr_clampHigh_le r a ha
        have h2 := chr_clampHigh_le g c hc
        have h3 := chr_clampHigh_le b d hd
        have h4 := ih t ht
        simp_all [List.all_eq_true]
  · intro r g b h
    have hnone : ∀ v : Int, v < 0 → chr (clampHigh v) = none := by
      intro v hv
      simp only [chr, clampHigh]
      split_ifs <;> first | rfl | omega
    rcases h with h | h | h
    · rw [sendListEncode_cons, hnone r h, Option.none_bind']
    · rw [sendListEncode_cons, hnone g h]
      cases ha : chr (clampHigh r)
      · rw [Option.none_bind']
      · rw [Option.some_bind', Option.none_bind']
    · rw [sendListEncode_cons, hnone b h]
      cases ha : chr (clampHigh r)
      · rw [Option.none_bind']
      · rw [Option.some_bind']
        cases hc : chr (clampHigh g)
        · rw [Option.none_bind']
        · rw [Option.some_bind', Option.none_bind']

/-- C3 witness: a concrete over-range list is encoded with the high clamp
applied, its bytes are within [0, 254], and a concrete negative channel
makes `sendListEncode` fail. -/
theorem c3_wire_bytes_in_range_witness :
    sendListEncode [((300 : Int), 2, 3)] = some [254, 2, 3]
    ∧ ([254, 2, 3] : List Nat).all (fun x => decide (x ≤ 254)) = true
    ∧ sendListEncode [((-1 : Int), 0, 0)] = none := by
  refine ⟨by decide, ?_, ?_⟩
  · exact c3_wire_bytes_in_range.2.1 [((300 : Int), 2, 3)] [254, 2, 3]
      (by decide)
  · exact c3_wire_bytes_in_range.2.2 (-1) 0 0 (Or.inl (by decide))

/-- C4: for a fixed pixel sequence accepted without a capacity error, the
concatenation of all bytes written to the channel after the final `show`
is the same in buffered and immediate mode. -/
theorem c4_buffered_immediate_equivalent (n : Nat)
    (ps : List (Int × Int × Int)) (s1 s2 : BlinkyTape)
    (h1 : runFrame n true ps = Except.ok s1)
    (h2 : runFrame n false ps = Except.ok s2) :
    s1.written = s2.written := by
  rcases sendPixels_mode_sim ps ⟨n, true, [], []⟩ ⟨n, false, [], []⟩
      rfl rfl rfl rfl with
    ⟨t1, t2, e1, e2, tb1, tb2, _, hw⟩ | ⟨e, e1, e2⟩
  · unfold runFrame at h1 h2
    rw [e1] at h1
    rw [e2] at h2
    simp only [Except.map] at h1 h2
    cases h1
    cases h2
    simp only [showFrame, tb1, tb2, if_true, Bool.false_eq_true, if_false]
    rw [← hw, List.append_assoc]
  · unfold runFrame at h1
    rw [e1] at h1
    simp [Except.map] at h1

/-- C4 witness: one concrete pixel, run in both modes. -/
theorem c4_buffered_immediate_equivalent_witness :
    (BlinkyTape.mk 60 true [] [1, 1, 1, 0, 0, 255]).written
      = (BlinkyTape.mk 60 false [] [1, 1, 1, 0, 0, 255]).written :=
  c4_buffered_immediate_equivalent 60 [((1 : Int), 1, 1)]
    (BlinkyTape.mk 60 true [] [1, 1, 1, 0, 0, 255])
    (BlinkyTape.mk 60 false [] [1, 1, 1, 0, 0, 255])
    (by rfl) (by rfl)

/-- C5: the response header decoding of `sendCommand` — status true
exactly when the first response byte is the ASCII value of P (80), and
`ret[1] + 1` payload bytes read as data — plus the concrete
`getFreeSpace` decode of response P, 0x03, 0x01, 0x02, 0x03, 0x04 as the
big-endian value 0x01020304, and `getFreeSpace` returning 0 whenever the
status is false. -/
theorem c5_response_decoding (cmd : List Nat) (h0 h1 : Nat)
    (rest : List Nat) (hlen : h1 + 1 ≤ rest.length) :
    ((sendCommand cmd (h0 :: h1 :: rest)).status = true ↔ h0 = 80)
    ∧ (sendCommand cmd (h0 :: h1 :: rest)).data = rest.take (h1 + 1)
    ∧ ((sendCommand cmd (h0 :: h1 :: rest)).data).length = h1 + 1
    ∧ getFreeSpace [80, 3, 1, 2, 3, 4] = 0x01020304
    ∧ (∀ response : List Nat,
        (sendCommand [0x10] response).status = false →
        getFreeSpace response = 0) := by
  refine ⟨?_, ?_, ?_, by decide, ?_⟩
  · simp [sendCommand]
  · simp [sendCommand]
  · have ht : List.take 2 (h0 :: h1 :: rest) = [h0, h1] := rfl
    simp only [sendCommand, ht, List.drop_succ_cons, List.drop_zero,
      List.getD_cons_zero, List.getD_cons_succ, List.length_take]
    omega
  · intro response h
    simp only [getFreeSpace, h, Bool.false_eq_true, if_false]

/-- C5 witness: concrete response header 80 (P) and length byte 3. -/
theorem c5_response_decoding_witness :
    (3 : Nat) + 1 ≤ ([1, 2, 3, 4] : List Nat).length
    ∧ (sendCommand [16] (80 :: 3 :: [1, 2, 3, 4])).data
        = ([1, 2, 3, 4] : List Nat).take (3 + 1) :=
  ⟨by decide, (c5_response_decoding [16] 80 3 [1, 2, 3, 4] (by decide)).2.1⟩

/-- C6: for channel values in [-100, 400], the triplet `sendPixel`
encodes has every byte in [0, 254]; per channel, a value at or above 255
maps to 254, a negative value to 0, and any other value to itself; and
whether `sendPixel` raises is independent of the channel values (so no
error is raised for out-of-range input as such). -/
theorem c6_sendpixel_channel_clamping (r g b : Int)
    (hr1 : -100 ≤ r) (hr2 : r ≤ 400) (hg1 : -100 ≤ g) (hg2 : g ≤ 400)
    (hb1 : -100 ≤ b) (hb2 : b ≤ 400) :
    (encodePixel r g b).all (fun x => decide (x ≤ 254)) = true
    ∧ (∀ v : Int,
        (255 ≤ v → (clampChannel v).toNat = 254)
        ∧ (v < 0 → (clampChannel v).toNat = 0)
        ∧ (0 ≤ v → v < 255 → ((clampChannel v).toNat : Int) = v))
    ∧ (∀ st : BlinkyTape,
        isOkE (sendPixel st r g b) = isOkE (sendPixel st 0 0 0)) := by
  refine ⟨c3_wire_bytes_in_range.1 r g b, ?_, ?_⟩
  · intro v
    rw [clampChannel_eq]
    refine ⟨?_, ?_, ?_⟩ <;> intros <;> split_ifs <;> omega
  · intro st
    rw [isOkE_sendPixel, isOkE_sendPixel]

/-- C6 witness: the concrete channels 300, -5, 7 lie in [-100, 400]. -/
theorem c6_sendpixel_channel_clamping_witness :
    ((-100 : Int) ≤ 300 ∧ (300 : Int) ≤ 400 ∧ (-100 : Int) ≤ -5
      ∧ (-5 : Int) ≤ 400 ∧ (-100 : Int) ≤ 7 ∧ (7 : Int) ≤ 400)
    ∧ (encodePixel 300 (-5) 7).all (fun x => decide (x ≤ 254)) = true :=
  ⟨by decide,
    (c6_sendpixel_channel_clamping 300 (-5) 7 (by decide) (by decide)
      (by decide) (by decide) (by decide) (by decide)).1⟩

/-- C7: `writeFilePage` with a payload whose length is not 256 returns
failure with zero bytes written; with a 256-byte payload it writes the
escape preamble followed by opcode 0x19, big-endian u32 sector,
big-endian u32 offset, then the 256 data bytes. -/
theorem c7_writefilepage_precondition (sector offset : Nat)
    (data response : List Nat) :
    (data.length ≠ 256 →
      writeFilePage sector offset data response = ([], false))
    ∧ (data.length = 256 →
      (writeFilePage sector offset data response).1
        = List.replicate 10 255
            ++ (0x19 :: (u32be sector ++ u32be offset ++ data))) := by
  constructor
  · intro h
    simp [writeFilePage, h]
  · intro h
    simp [writeFilePage, h, sendCommand, controlEscapeSequence_eq]

/-- C7 witness: a concrete 255-byte payload fails with no writes. -/
theorem c7_writefilepage_precondition_witness :
    writeFilePage 1 2 (List.replicate 255 0) [] = ([], false) :=
  (c7_writefilepage_precondition 1 2 (List.replicate 255 0) []).1
    (by rw [List.length_replicate]; decide)

/-- C8: `sendCommand` writes exactly ten bytes of value 255 immediately
followed by the command payload (and nothing else) before any response
byte is consumed; in particular the payload 0x02 yields ten 255 bytes
then the single byte 0x02. -/
theorem c8_command_escape_preamble (command response : List Nat) :
    (sendCommand command response).writes = List.replicate 10 255 ++ command
    ∧ (sendCommand [0x02] response).writes
        = List.replicate 10 255 ++ [0x02] :=
  ⟨rfl, rfl⟩

/-- C9: for every requested length up to 256, `readFileData` sends the
escape preamble then opcode 0x1A, big-endian u32 sector, big-endian u32
offset, and a final byte equal to (length - 1) mod 256; length 0 encodes
the final byte as 255. -/
theorem c9_readfiledata_length_encoding (sector offset length : Nat)
    (response : List Nat) (h : length ≤ 256) :
    (readFileData sector offset length response).1
      = List.replicate 10 255
          ++ (0x1A :: (u32be sector ++ u32be offset ++ [lenByte length]))
    ∧ ((lenByte length : Int)) = ((length : Int) - 1) % 256
    ∧ lenByte 0 = 255 := by
  refine ⟨?_, ?_, by decide⟩
  · have h2 : ¬ 256 < length := by omega
    simp [readFileData, h2, sendCommand, controlEscapeSequence_eq]
  · have hpos : 0 ≤ ((length : Int) - 1) % 256 :=
      Int.emod_nonneg _ (by norm_num)
    unfold lenByte
    omega

/-- C9 witness: length 0 is encoded with final byte 255. -/
theorem c9_readfiledata_length_encoding_witness :
    (0 : Nat) ≤ 256 ∧ lenByte 0 = 255 :=
  ⟨by decide, (c9_readfiledata_length_encoding 3 4 0 [] (by decide)).2.2⟩

/-- C10: a request for more than 256 bytes makes `readFileData` perform
no channel I/O and return the bare boolean False (the left summand,
distinct in shape from the (status, data) pair of the right summand that
every completed round trip returns). -/
theorem c10_readfiledata_fastfail_shape (sector offset length : Nat)
    (response : List Nat) (h : 256 < length) :
    readFileData sector offset length response = ([], Sum.inl false)
    ∧ (∀ l : Nat, l ≤ 256 → ∃ s d,
        (readFileData sector offset l response).2 = Sum.inr (s, d)) := by
  constructor
  · simp [readFileData, h]
  · intro l hl
    have h2 : ¬ 256 < l := by omega
    refine ⟨(sendCommand
        (0x1A :: (u32be sector ++ u32be offset ++ [lenByte l]))
        response).status,
      (sendCommand
        (0x1A :: (u32be sector ++ u32be offset ++ [lenByte l]))
        response).data, ?_⟩
    simp [readFileData, h2]

/-- C10 witness: a concrete length of 257. -/
theorem c10_readfiledata_fastfail_shape_witness :
    readFileData 0 0 257 [] = ([], Sum.inl false) :=
  (c10_readfiledata_fastfail_shape 0 0 257 [] (by decide)).1
